import Mathlib

/-!
Verification of the example-synthesis pipeline, batch assembler, phase state
machine and metrics of `src/models/resnet_50_V1.py` (IIMAS-USCS audio
verification model).  Waveform samples are modelled as rationals, numpy/Python
errors as `none`, and the randomness consumed by the pipeline is passed in
explicitly.
-/

namespace Resnet50

/-- Samplerate of the records (line 80). -/
def SAMPLERATE : ℕ := 48000

/-- `WINDOW = int(0.05*48000)` (line 84). -/
def WINDOW : ℕ := 2400

/-- `NPERSEG = int(0.005/MS)` with `MS = 1.0/48000` (line 91). -/
def NPERSEG : ℕ := 240

/-- `NOVERLAP = int(0.003/MS)` (line 95). -/
def NOVERLAP : ℕ := 144

/-- Number of spectrogram rows kept (line 101). -/
def SIZE_FFT : ℕ := 64

/-- `SIZE_COLS = int(np.ceil((WINDOW - NPERSEG)/(NPERSEG - NOVERLAP)))` (line 104). -/
def SIZE_COLS : ℕ := 23

/-- VAD threshold (line 111): `VAD = 0.05 = 1/20`. -/
def VAD : ℚ := 1/20

/-- A corpus waveform: a 1-D sequence of amplitude samples (`sf.read`). -/
abbrev Waveform := List ℚ

/-- Python slice `xs[i : i+len]`. -/
def slice (xs : Waveform) (i len : ℕ) : Waveform := (xs.drop i).take len

/-- Start indices visited by `xrange(0, n, WINDOW)` (line 1184): all
multiples of `WINDOW` strictly below `n`. -/
def windowStarts (n : ℕ) : List ℕ :=
  (List.range ((n + WINDOW - 1) / WINDOW)).map (· * WINDOW)

theorem mem_windowStarts (n i : ℕ) :
    i ∈ windowStarts n ↔ (∃ k, i = k * WINDOW) ∧ i < n := by
  simp only [windowStarts, WINDOW, List.mem_map, List.mem_range]
  constructor
  · rintro ⟨k, hk, rfl⟩
    exact ⟨⟨k, rfl⟩, by omega⟩
  · rintro ⟨⟨k, rfl⟩, h⟩
    exact ⟨k, by omega, rfl⟩

/-- `np.mean(np.abs(w))`; the empty mean is `0` (`0/0 = 0` in `ℚ`). -/
def meanAbs (w : Waveform) : ℚ := (w.map (fun x => |x|)).sum / w.length

/-- Voice-activity gate (line 1188): `np.sqrt(np.mean(np.abs(a1_alone))) > VAD`.
Both sides of the source comparison are nonnegative, so it is equivalent to
`np.mean(np.abs(a1_alone)) > VAD^2`; `vadGate_iff_sqrt` proves the equivalence
with the literal square-root form. -/
def vadGate (w : Waveform) : Bool := decide (VAD ^ 2 < meanAbs w)

theorem meanAbs_nonneg (w : Waveform) : 0 ≤ meanAbs w := by
  apply div_nonneg
  · apply List.sum_nonneg
    intro x hx
    simp only [List.mem_map] at hx
    obtain ⟨y, -, rfl⟩ := hx
    exact abs_nonneg y
  · exact_mod_cast Nat.zero_le _

theorem vadGate_iff_sqrt (w : Waveform) :
    vadGate w = true ↔ ((VAD : ℚ) : ℝ) < Real.sqrt ((meanAbs w : ℚ) : ℝ) := by
  rw [vadGate, decide_eq_true_iff]
  rw [Real.lt_sqrt (by norm_num [VAD])]
  rw [show ((VAD : ℚ) : ℝ) ^ 2 = ((VAD ^ 2 : ℚ) : ℝ) by push_cast; ring]
  exact_mod_cast Iff.rfl

/-- The quantity named by the spec for the gate, modelled from the spec words
(for comparison with the source gate only): the mean of the squared samples,
whose square root is the root-mean-square magnitude. -/
def specMeanSq (w : Waveform) : ℚ := (w.map (fun x => x ^ 2)).sum / w.length

/-- A training example; `α` abstracts the spectrogram feature pipeline
(lines 1198-1205 / 1215-1222) applied to the raw windows, and `label` is the
one-hot list appended to `Y`. -/
structure Example (α : Type) where
  x1 : α
  x2 : α
  label : List ℕ

/-- `Y.append([0,1])` for the positive (mixed) example (line 1210). -/
def posLabel : List ℕ := [0, 1]

/-- `Y.append([1,0])` for the negative (distinct) example (line 1227). -/
def negLabel : List ℕ := [1, 0]

/-- Python 2 `random.randrange(start, stop, 1)` with the draw `r` supplied
externally: raises `ValueError` (here `none`) unless `start < stop`. -/
def randrange (start stop : ℤ) (r : ℕ) : Option ℤ :=
  if start < stop then some (start + (r : ℤ) % (stop - start)) else none

/-- numpy elementwise `+` on 1-D arrays: equal lengths add pointwise, a
length-1 operand broadcasts, any other shape pair is an error (`none`). -/
def npAdd (a b : Waveform) : Option Waveform :=
  if a.length = b.length then some (List.zipWith (fun x y => x + y) a b)
  else if a.length = 1 then some (b.map (fun y => a.sum + y))
  else if b.length = 1 then some (a.map (fun x => x + b.sum))
  else none

/-- Lines 1190-1229, the body run for one accepted anchor window `a1`:
`index_a2 = random.randrange(0, audio_2.shape[0]-WINDOW, 1)`, then
`a2_alone = audio_2[index_a2:index_a2+WINDOW]`, `a1_mix_a2 = a1_alone + a2_alone`,
and the emission of the positive example `(F a1, F (a1+a2), [0,1])` followed by
the negative example `(F a1, F a2, [1,0])`.  `F` is the feature pipeline
(spectrogram, standardization, truncation), `r` the random draw. -/
def synthPair {α : Type} (F : Waveform → α) (a1 audio2 : Waveform) (r : ℕ) :
    Option (List (Example α)) :=
  match randrange 0 ((audio2.length : ℤ) - (WINDOW : ℤ)) r with
  | none => none
  | some i =>
      let a2 := slice audio2 i.toNat WINDOW
      match npAdd a1 a2 with
      | none => none
      | some a1mixa2 =>
          some [⟨F a1, F a1mixa2, posLabel⟩, ⟨F a1, F a2, negLabel⟩]

/-- Lines 1186-1229, the body run for one window slice: the VAD gate decides
whether the slice becomes an anchor; a slice failing the gate contributes no
examples. -/
def processWindow {α : Type} (F : Waveform → α) (a1 audio2 : Waveform) (r : ℕ) :
    Option (List (Example α)) :=
  if vadGate a1 then synthPair F a1 audio2 r else some []

/-- Sequencing of per-window results: examples are concatenated in order and
any raised error aborts the whole pass. -/
def collectExamples {α : Type} (g : ℕ → Option (List (Example α))) :
    List ℕ → Option (List (Example α))
  | [] => some []
  | i :: is =>
      match g i, collectExamples g is with
      | some es, some rest => some (es ++ rest)
      | _, _ => none

/-- One anchor file's pass over lines 1184-1229: every start index of
`xrange(0, len(audio1), WINDOW)` is processed; `choice i` supplies the randomly
chosen second waveform and the random draw used at start index `i`. -/
def filePass {α : Type} (F : Waveform → α) (audio1 : Waveform)
    (choice : ℕ → Waveform × ℕ) : Option (List (Example α)) :=
  collectExamples
    (fun i => processWindow F (slice audio1 i WINDOW) (choice i).1 (choice i).2)
    (windowStarts audio1.length)

theorem meanAbs_replicate_centi :
    meanAbs (List.replicate 2400 (1/100 : ℚ)) = 1/100 := by
  simp only [meanAbs, List.map_replicate, List.sum_replicate, List.length_replicate,
    smul_eq_mul]
  rw [abs_of_pos (by norm_num)]
  norm_num

theorem vadGate_replicate_centi :
    vadGate (List.replicate 2400 (1/100 : ℚ)) = true := by
  simp only [vadGate, meanAbs_replicate_centi, VAD, decide_eq_true_eq]
  norm_num

theorem synthPair_centi_eval :
    synthPair (fun _ => ()) (List.replicate 2400 (1/100 : ℚ))
        (List.replicate 4800 (0 : ℚ)) 0
      = some [⟨(), (), posLabel⟩, ⟨(), (), negLabel⟩] := by
  have hr : randrange 0 (((List.replicate 4800 (0:ℚ)).length : ℤ) - (WINDOW : ℤ)) 0
      = some 0 := by
    rw [randrange, if_pos]
    · norm_num
    · norm_num [WINDOW]
  have hs : slice (List.replicate 4800 (0:ℚ)) ((0:ℤ)).toNat WINDOW
      = List.replicate 2400 (0:ℚ) := by
    rw [show ((0:ℤ)).toNat = 0 from rfl, slice, List.drop_zero, WINDOW,
      List.take_replicate]
    norm_num
  have hadd : npAdd (List.replicate 2400 (1/100 : ℚ)) (List.replicate 2400 (0:ℚ))
      = some (List.zipWith (fun x y => x + y)
          (List.replicate 2400 (1/100 : ℚ)) (List.replicate 2400 (0:ℚ))) := by
    rw [npAdd, if_pos (by rw [List.length_replicate, List.length_replicate])]
  rw [synthPair, hr]
  simp only [hs, hadd]

/-- C1 (counterexample): the constant window of 2400 samples of amplitude
`1/100` has root-mean-square magnitude `1/100 ≤ VAD = 1/20`, yet the source
gate (line 1188) accepts it as an anchor and two examples are synthesized from
it — the gate compares `sqrt(mean(|w|))`, not the root-mean-square, with
`VAD`. -/
theorem c1_rms_gate_counterexample :
    Real.sqrt ((specMeanSq (List.replicate 2400 (1/100 : ℚ)) : ℚ) : ℝ) ≤ ((VAD : ℚ) : ℝ) ∧
    vadGate (List.replicate 2400 (1/100 : ℚ)) = true ∧
    (processWindow (fun _ => ()) (List.replicate 2400 (1/100 : ℚ))
        (List.replicate 4800 (0 : ℚ)) 0).map List.length = some 2 := by
  refine ⟨?_, vadGate_replicate_centi, ?_⟩
  · have hq : specMeanSq (List.replicate 2400 (1/100 : ℚ)) = 1/10000 := by
      simp only [specMeanSq, List.map_replicate, List.sum_replicate,
        List.length_replicate, smul_eq_mul]
      norm_num
    rw [hq, show (((1:ℚ)/10000 : ℚ) : ℝ) = (1/100 : ℝ) ^ 2 by norm_num,
      Real.sqrt_sq (by norm_num)]
    norm_num [VAD]
  · rw [processWindow, if_pos vadGate_replicate_centi, synthPair_centi_eval]
    rfl

/-- C1 (amended): a window becomes an anchor if and only if the square root of
its mean absolute amplitude exceeds `VAD` (the source gate; equivalently the
mean absolute amplitude exceeds `VAD^2`), and every window failing that gate
contributes zero examples. -/
theorem c1_vad_gate_amended {α : Type} (F : Waveform → α) (w audio2 : Waveform) (r : ℕ) :
    (vadGate w = true ↔ ((VAD : ℚ) : ℝ) < Real.sqrt ((meanAbs w : ℚ) : ℝ)) ∧
    (vadGate w = false → processWindow F w audio2 r = some []) := by
  refine ⟨vadGate_iff_sqrt w, fun h => ?_⟩
  simp [processWindow, h]

/-- C1 amended, evaluated at the all-silent window: the gate rejects it and it
yields no examples. -/
theorem c1_vad_gate_amended_witness :
    vadGate (List.replicate 2400 (0 : ℚ)) = false ∧
    processWindow (fun w => w) (List.replicate 2400 (0 : ℚ)) [] 0 = some [] := by
  have hf : vadGate (List.replicate 2400 (0 : ℚ)) = false := by
    simp only [vadGate, meanAbs, List.map_replicate, List.sum_replicate,
      List.length_replicate, smul_eq_mul, abs_zero, VAD, decide_eq_false_iff_not]
    norm_num
  exact ⟨hf, (c1_vad_gate_amended (fun w => w) _ [] 0).2 hf⟩

/-- C2 (counterexample): for a 2405-sample anchor waveform the stepping loop
`xrange(0, 2405, WINDOW)` visits start index 2400, and the slice taken there
has only 5 samples — the last partial window is visited by the loop, not
dropped by its bound. -/
theorem c2_partial_window_counterexample :
    2400 ∈ windowStarts 2405 ∧
    (slice (List.replicate 2405 (0 : ℚ)) 2400 WINDOW).length = 5 ∧
    (slice (List.replicate 2405 (0 : ℚ)) 2400 WINDOW).length < WINDOW := by
  refine ⟨by decide, ?_, ?_⟩
  · simp only [slice, WINDOW, List.length_take, List.length_drop, List.length_replicate]
    omega
  · simp only [slice, WINDOW, List.length_take, List.length_drop, List.length_replicate]
    omega

/-- C2 (amended): the stepping loop visits exactly the multiples of `WINDOW`
strictly below the waveform length, so when `WINDOW` does not divide the
length the final visited slice is shorter than `WINDOW` and is not dropped by
the loop bound; a visited slice failing the VAD gate yields no examples, while
a partial slice of length at least 2 that passes the gate makes the elementwise
mix a shape error, so the synthesis has no defined result there instead of
skipping the slice. -/
theorem c2_partial_window_amended {α : Type} (F : Waveform → α)
    (n : ℕ) (w audio2 : Waveform) (r : ℕ) :
    (∀ i, i ∈ windowStarts n ↔ (∃ k, i = k * WINDOW) ∧ i < n) ∧
    (vadGate w = false → processWindow F w audio2 r = some []) ∧
    (w.length < WINDOW → w.length ≠ 1 → vadGate w = true →
      processWindow F w audio2 r = none) := by
  refine ⟨fun i => mem_windowStarts n i, fun h => by simp [processWindow, h], ?_⟩
  intro hlen hone hgate
  rw [processWindow, if_pos hgate, synthPair]
  cases hr : randrange 0 ((audio2.length : ℤ) - (WINDOW : ℤ)) r with
  | none => rfl
  | some i =>
      rw [randrange] at hr
      by_cases hpos : (0:ℤ) < (audio2.length : ℤ) - (WINDOW : ℤ)
      · rw [if_pos hpos] at hr
        have hi : i = (r : ℤ) % ((audio2.length : ℤ) - (WINDOW : ℤ)) := by
          have h := Option.some.inj hr
          rw [sub_zero, zero_add] at h
          exact h.symm
        have hi0 : 0 ≤ i := by
          rw [hi]
          exact Int.emod_nonneg _ (by omega)
        have hilt : i < (audio2.length : ℤ) - (WINDOW : ℤ) := by
          rw [hi]
          exact Int.emod_lt_of_pos _ hpos
        have hiN : Int.toNat i + WINDOW < audio2.length := by omega
        have ha2 : (slice audio2 i.toNat WINDOW).length = WINDOW := by
          simp only [slice, List.length_take, List.length_drop]
          omega
        have hnone : npAdd w (slice audio2 i.toNat WINDOW) = none := by
          rw [npAdd, if_neg (by omega), if_neg hone, if_neg (by rw [ha2, WINDOW]; omega)]
        simp only [hnone]
      · rw [if_neg hpos] at hr
        exact absurd hr (by simp)

/-- C2 amended, evaluated at the loud 2-sample partial window: it passes the
gate and the synthesis step has no defined result. -/
theorem c2_partial_window_amended_witness :
    ([(1 : ℚ), 1] : Waveform).length < WINDOW ∧
    vadGate [(1 : ℚ), 1] = true ∧
    processWindow (fun w => w) [(1 : ℚ), 1] (List.replicate 4800 (0 : ℚ)) 0 = none := by
  have hg : vadGate [(1 : ℚ), 1] = true := by
    simp only [vadGate, meanAbs, VAD, decide_eq_true_eq]
    norm_num
  refine ⟨by norm_num [WINDOW], hg, ?_⟩
  exact (c2_partial_window_amended (fun w => w) 0 [(1:ℚ), 1] _ 0).2.2
    (by norm_num [WINDOW]) (by norm_num) hg

/-- C3: if the randomly chosen second file's waveform is shorter than one
window (`WINDOW = 2400` samples), the synthesis step fails: the random
start-index call `randrange(0, len(audio_2) - WINDOW, 1)` has an empty range
and raises, with no guard or skip policy, so there is no defined result. -/
theorem c3_short_second_file_errors {α : Type} (F : Waveform → α)
    (a1 audio2 : Waveform) (r : ℕ) (h : audio2.length < WINDOW) :
    WINDOW = 2400 ∧ synthPair F a1 audio2 r = none := by
  refine ⟨rfl, ?_⟩
  have hnone : randrange 0 ((audio2.length : ℤ) - (WINDOW : ℤ)) r = none := by
    rw [randrange, if_neg]
    omega
  rw [synthPair, hnone]

/-- C3 evaluated at a 5-sample second file: the range call errors. -/
theorem c3_short_second_file_errors_witness :
    (List.replicate 5 (0:ℚ)).length < WINDOW ∧
    (WINDOW = 2400 ∧ synthPair (fun w => w) [] (List.replicate 5 (0:ℚ)) 0 = none) := by
  have h : (List.replicate 5 (0:ℚ)).length < WINDOW := by
    norm_num [WINDOW]
  exact ⟨h, c3_short_second_file_errors (fun w => w) [] _ 0 h⟩

/-- Number of emitted examples whose label is `l`. -/
def countLabel {α : Type} (l : List ℕ) (es : List (Example α)) : ℕ :=
  es.countP (fun e => decide (e.label = l))

theorem countLabel_synthPair {α : Type} (F : Waveform → α) (a1 audio2 : Waveform)
    (r : ℕ) (es : List (Example α)) (h : synthPair F a1 audio2 r = some es) :
    countLabel posLabel es = 1 ∧ countLabel negLabel es = 1 := by
  rw [synthPair] at h
  cases hr : randrange 0 ((audio2.length : ℤ) - (WINDOW : ℤ)) r with
  | none =>
      rw [hr] at h
      exact absurd h (by simp)
  | some i =>
      rw [hr] at h
      simp only at h
      cases hm : npAdd a1 (slice audio2 i.toNat WINDOW) with
      | none =>
          rw [hm] at h
          exact absurd h (by simp)
      | some m =>
          rw [hm] at h
          have he := Option.some.inj h
          subst he
          simp [countLabel, posLabel, negLabel]

theorem countLabel_processWindow {α : Type} (F : Waveform → α) (a1 audio2 : Waveform)
    (r : ℕ) (es : List (Example α)) (h : processWindow F a1 audio2 r = some es) :
    countLabel posLabel es = countLabel negLabel es := by
  rw [processWindow] at h
  by_cases hg : vadGate a1 = true
  · rw [if_pos hg] at h
    obtain ⟨h1, h2⟩ := countLabel_synthPair F a1 audio2 r es h
    rw [h1, h2]
  · rw [if_neg hg] at h
    have he := Option.some.inj h
    subst he
    rfl

theorem countLabel_collectExamples {α : Type} (g : ℕ → Option (List (Example α)))
    (hg : ∀ i es, g i = some es → countLabel posLabel es = countLabel negLabel es) :
    ∀ is es, collectExamples g is = some es →
      countLabel posLabel es = countLabel negLabel es := by
  intro is
  induction is with
  | nil =>
      intro es h
      have he := Option.some.inj h
      subst he
      rfl
  | cons i is ih =>
      intro es h
      rw [collectExamples] at h
      cases h1 : g i with
      | none =>
          rw [h1] at h
          exact absurd h (by simp)
      | some es1 =>
          rw [h1] at h
          cases h2 : collectExamples g is with
          | none =>
              rw [h2] at h
              exact absurd h (by simp)
          | some rest =>
              rw [h2] at h
              have he := Option.some.inj h
              subst he
              simp only [countLabel, List.countP_append]
              have ha := hg i es1 h1
              have hb := ih rest h2
              simp only [countLabel] at ha hb
              omega

/-- C4: for every accepted anchor window exactly one positive example (label
`[0,1]`, second operand the elementwise mix) and one negative example (label
`[1,0]`, second operand the second window alone) are emitted, the two labels of
the pair are never equal, and in any completed phase pass over an anchor file
the positive and negative counts are equal. -/
theorem c4_pos_neg_pairing {α : Type} (F : Waveform → α) :
    posLabel ≠ negLabel ∧
    (∀ a1 audio2 r es, synthPair F a1 audio2 r = some es →
        countLabel posLabel es = 1 ∧ countLabel negLabel es = 1) ∧
    (∀ audio1 choice es, filePass F audio1 choice = some es →
        countLabel posLabel es = countLabel negLabel es) := by
  refine ⟨by decide, fun a1 audio2 r es h => countLabel_synthPair F a1 audio2 r es h, ?_⟩
  intro audio1 choice es h
  exact countLabel_collectExamples _
    (fun i es2 h2 => countLabel_processWindow F _ _ _ es2 h2) _ es h

/-- C4 evaluated on a concrete accepted anchor: the emitted pair has exactly
one positive and one negative label. -/
theorem c4_pos_neg_pairing_witness :
    countLabel posLabel [(⟨(), (), posLabel⟩ : Example Unit), ⟨(), (), negLabel⟩] = 1 ∧
    countLabel negLabel [(⟨(), (), posLabel⟩ : Example Unit), ⟨(), (), negLabel⟩] = 1 :=
  (c4_pos_neg_pairing (fun _ => ())).2.1 _ _ 0 _ synthPair_centi_eval

/-- The ordered sequence of `self.weight[...]` entries read by tower A, the
branch of `def_model` processing `X1` (lines 345-673). -/
def towerAWeightNames : List String :=
  ["W_cn0",
   "W_b1_u1_cn0", "W_b1_u1_cn1", "W_b1_u1_cn2", "W_b1_u1_cn3",
   "W_b1_u2_cn1", "W_b1_u2_cn2", "W_b1_u2_cn3",
   "W_b1_u3_cn1", "W_b1_u3_cn2", "W_b1_u3_cn3",
   "W_b2_u1_cn0", "W_b2_u1_cn1", "W_b2_u1_cn2", "W_b2_u1_cn3",
   "W_b2_u2_cn1", "W_b2_u2_cn2", "W_b2_u2_cn3",
   "W_b2_u3_cn1", "W_b2_u3_cn2", "W_b2_u3_cn3",
   "W_b2_u4_cn1", "W_b2_u4_cn2", "W_b2_u4_cn3",
   "W_b3_u1_cn0", "W_b3_u1_cn1", "W_b3_u1_cn2", "W_b3_u1_cn3",
   "W_b3_u2_cn1", "W_b3_u2_cn2", "W_b3_u2_cn3",
   "W_b3_u3_cn1", "W_b3_u3_cn2", "W_b3_u3_cn3",
   "W_b3_u4_cn1", "W_b3_u4_cn2", "W_b3_u4_cn3",
   "W_b3_u5_cn1", "W_b3_u5_cn2", "W_b3_u5_cn3",
   "W_b3_u6_cn1", "W_b3_u6_cn2", "W_b3_u6_cn3",
   "W_b4_u1_cn0", "W_b4_u1_cn1", "W_b4_u1_cn2", "W_b4_u1_cn3",
   "W_b4_u2_cn1", "W_b4_u2_cn2", "W_b4_u2_cn3",
   "W_b4_u3_cn1", "W_b4_u3_cn2", "W_b4_u3_cn3"]

/-- The ordered sequence of `self.weight[...]` entries read by tower B, the
branch of `def_model` processing `X2` (lines 677-1008). -/
def towerBWeightNames : List String :=
  ["W_cn0",
   "W_b1_u1_cn0", "W_b1_u1_cn1", "W_b1_u1_cn2", "W_b1_u1_cn3",
   "W_b1_u2_cn1", "W_b1_u2_cn2", "W_b1_u2_cn3",
   "W_b1_u3_cn1", "W_b1_u3_cn2", "W_b1_u3_cn3",
   "W_b2_u1_cn0", "W_b2_u1_cn1", "W_b2_u1_cn2", "W_b2_u1_cn3",
   "W_b2_u2_cn1", "W_b2_u2_cn2", "W_b2_u2_cn3",
   "W_b2_u3_cn1", "W_b2_u3_cn2", "W_b2_u3_cn3",
   "W_b2_u4_cn1", "W_b2_u4_cn2", "W_b2_u4_cn3",
   "W_b3_u1_cn0", "W_b3_u1_cn1", "W_b3_u1_cn2", "W_b3_u1_cn3",
   "W_b3_u2_cn1", "W_b3_u2_cn2", "W_b3_u2_cn3",
   "W_b3_u3_cn1", "W_b3_u3_cn2", "W_b3_u3_cn3",
   "W_b3_u4_cn1", "W_b3_u4_cn2", "W_b3_u4_cn3",
   "W_b3_u5_cn1", "W_b3_u5_cn2", "W_b3_u5_cn3",
   "W_b3_u6_cn1", "W_b3_u6_cn2", "W_b3_u6_cn3",
   "W_b4_u1_cn0", "W_b4_u1_cn1", "W_b4_u1_cn2", "W_b4_u1_cn3",
   "W_b4_u2_cn1", "W_b4_u2_cn2", "W_b4_u2_cn3",
   "W_b4_u3_cn1", "W_b4_u3_cn2", "W_b4_u3_cn3"]

/-- The parameter tensors a tower reads from the single shared mapping
`self.weight`, in the order its layers consume them. -/
def towerParams {T : Type} (weight : String → T) (names : List String) : List T :=
  names.map weight

/-- C5: tower A and tower B read the same named entries of the single shared
weight mapping, so every named weight is applied as the identical parameter
tensor by both towers, and this identity is preserved after every optimizer
update of the shared mapping (iterating any update any number of times). -/
theorem c5_weight_sharing :
    towerAWeightNames = towerBWeightNames ∧
    (∀ (T : Type) (weight : String → T),
        towerParams weight towerAWeightNames = towerParams weight towerBWeightNames) ∧
    (∀ (T : Type) (weight : String → T) (update : (String → T) → (String → T)) (n : ℕ),
        towerParams (update^[n] weight) towerAWeightNames
          = towerParams (update^[n] weight) towerBWeightNames) :=
  ⟨rfl, fun _ _ => rfl, fun _ _ _ _ => rfl⟩

/-- Accumulator state of the batch assembler: the three parallel Python lists
`X1`, `X2`, `Y` (lines 1169-1171) and the `total` counter (line 1175). -/
structure Accum (α : Type) where
  x1 : List α
  x2 : List α
  y : List (List ℕ)
  total : ℕ
deriving DecidableEq

def emptyAccum {α : Type} : Accum α := ⟨[], [], [], 0⟩

/-- `X1.append(..); X2.append(..); Y.append(..); total += 1` for one emitted
example (lines 1208-1212 and 1225-1229). -/
def pushExample {α : Type} (s : Accum α) (e : Example α) : Accum α :=
  ⟨s.x1 ++ [e.x1], s.x2 ++ [e.x2], s.y ++ [e.label], s.total + 1⟩

/-- Lines 1208-1239 for one accepted anchor: push the positive then the
negative example, then test `total >= batch_size`; on reaching the threshold
the three arrays are handed over as a batch and the accumulator is reset. -/
def stepPair {α : Type} (bs : ℕ) (s : Accum α) (pos neg : Example α) :
    Accum α × Option (Accum α) :=
  let s2 := pushExample (pushExample s pos) neg
  if bs ≤ s2.total then (emptyAccum, some s2) else (s2, none)

/-- The batches dispatched to the network while consuming a stream of emitted
example pairs. -/
def dispatched {α : Type} (bs : ℕ) (s : Accum α) :
    List (Example α × Example α) → List (Accum α)
  | [] => []
  | p :: ps =>
      (stepPair bs s p.1 p.2).2.toList ++ dispatched bs (stepPair bs s p.1 p.2).1 ps

theorem dispatched_inv {α : Type} (bs : ℕ) :
    ∀ (pairs : List (Example α × Example α)) (s : Accum α),
      s.x1.length = s.total → s.x2.length = s.total → s.y.length = s.total →
      s.total < bs →
      ∀ b ∈ dispatched bs s pairs,
        b.x1.length = b.total ∧ b.x2.length = b.total ∧ b.y.length = b.total ∧
        bs ≤ b.total ∧ b.total ≤ bs + 1 := by
  intro pairs
  induction pairs with
  | nil =>
      intro s _ _ _ _ b hb
      simp [dispatched] at hb
  | cons p ps ih =>
      intro s h1 h2 h3 h4 b hb
      rw [dispatched] at hb
      have hx1 : (pushExample (pushExample s p.1) p.2).x1.length = s.total + 2 := by
        simp [pushExample, h1]
      have hx2 : (pushExample (pushExample s p.1) p.2).x2.length = s.total + 2 := by
        simp [pushExample, h2]
      have hy : (pushExample (pushExample s p.1) p.2).y.length = s.total + 2 := by
        simp [pushExample, h3]
      have ht : (pushExample (pushExample s p.1) p.2).total = s.total + 2 := by
        simp [pushExample]
      by_cases hth : bs ≤ (pushExample (pushExample s p.1) p.2).total
      · rw [stepPair] at hb
        simp only [if_pos hth] at hb
        rcases List.mem_append.mp hb with hb1 | hb2
        · have hbe : b = pushExample (pushExample s p.1) p.2 := by
            simpa using hb1
          subst hbe
          refine ⟨hx1, hx2, hy, hth, ?_⟩
          omega
        · have h0 : (emptyAccum : Accum α).total = 0 := rfl
          exact ih emptyAccum rfl rfl rfl (by omega) b hb2
      · rw [stepPair] at hb
        simp only [if_neg hth] at hb
        simp only [Option.toList_none, List.nil_append] at hb
        exact ih _ hx1 hx2 hy (by omega) b hb

/-- C6: with a positive configured batch size, every batch the assembler hands
to the network has its three arrays of equal leading length, and that length is
at least `batch_size` and at most `batch_size + 1` (overshoot by one is
possible because examples are appended in pairs and the threshold is checked
only after the full pair). -/
theorem c6_batch_sizes {α : Type} (bs : ℕ) (hbs : 1 ≤ bs)
    (pairs : List (Example α × Example α)) (b : Accum α)
    (hb : b ∈ dispatched bs emptyAccum pairs) :
    b.x1.length = b.x2.length ∧ b.x2.length = b.y.length ∧
    bs ≤ b.x1.length ∧ b.x1.length ≤ bs + 1 := by
  obtain ⟨e1, e2, e3, e4, e5⟩ :=
    dispatched_inv bs pairs emptyAccum rfl rfl rfl hbs b hb
  omega

/-- C6 evaluated concretely: with `batch_size = 2`, one emitted pair dispatches
a batch of three aligned arrays of length 2. -/
theorem c6_batch_sizes_witness :
    let b : Accum Unit := ⟨[(), ()], [(), ()], [posLabel, negLabel], 2⟩
    b.x1.length = b.x2.length ∧ b.x2.length = b.y.length ∧
    2 ≤ b.x1.length ∧ b.x1.length ≤ 2 + 1 :=
  c6_batch_sizes 2 (by norm_num)
    [(⟨(), (), posLabel⟩, ⟨(), (), negLabel⟩)] _ (by decide)

/-- numpy fancy indexing `xs[p]` on the leading axis (lines 1242-1244): row
`k` of the result is row `p[k]` of `xs`; the default `d` is never used when
every index of `p` is in bounds. -/
def npIndex {α : Type} (d : α) (xs : List α) (p : List ℕ) : List α :=
  p.map (fun i => xs.getD i d)

/-- The three parallel arrays viewed as a single list of example tuples. -/
def zip3 {α β γ : Type} : List α → List β → List γ → List (α × β × γ)
  | a :: as, b :: bs, c :: cs => (a, b, c) :: zip3 as bs cs
  | _, _, _ => []

theorem getD_mem_zip3 {α β γ : Type} (da : α) (db : β) (dc : γ) :
    ∀ (xs : List α) (ys : List β) (zs : List γ) (j : ℕ),
      xs.length = ys.length → ys.length = zs.length → j < xs.length →
      (xs.getD j da, ys.getD j db, zs.getD j dc) ∈ zip3 xs ys zs := by
  intro xs
  induction xs with
  | nil =>
      intro ys zs j _ _ hj
      exact absurd hj (by simp)
  | cons x xs ih =>
      intro ys zs j hxy hyz hj
      cases ys with
      | nil => exact absurd hxy (by simp)
      | cons y ys =>
          cases zs with
          | nil => exact absurd hyz (by simp)
          | cons z zs =>
              cases j with
              | zero =>
                  simp [zip3]
              | succ j =>
                  simp only [List.getD_cons_succ, zip3]
                  refine List.mem_cons_of_mem _ ?_
                  exact ih ys zs j (by simpa using hxy) (by simpa using hyz)
                    (by simpa using hj)

/-- C7: one single permutation applied identically to the three arrays never
desynchronizes them: row `k` of the permuted batch is exactly the original
tuple at index `p[k]`, hence one of the originally emitted example tuples. -/
theorem c7_co_permutation {α β γ : Type} (da : α) (db : β) (dc : γ)
    (xs : List α) (ys : List β) (zs : List γ) (p : List ℕ)
    (hxy : xs.length = ys.length) (hyz : ys.length = zs.length)
    (hp : ∀ i ∈ p, i < xs.length) (k : ℕ) (hk : k < p.length) :
    ((npIndex da xs p).getD k da, (npIndex db ys p).getD k db,
        (npIndex dc zs p).getD k dc)
      = (xs.getD (p.getD k 0) da, ys.getD (p.getD k 0) db,
          zs.getD (p.getD k 0) dc) ∧
    ((npIndex da xs p).getD k da, (npIndex db ys p).getD k db,
        (npIndex dc zs p).getD k dc) ∈ zip3 xs ys zs := by
  have hmap : ∀ {δ : Type} (d : δ) (ws : List δ),
      (npIndex d ws p).getD k d = ws.getD (p.getD k 0) d := by
    intro δ d ws
    have h1 : (npIndex d ws p).getD k d = ws.getD (p.get ⟨k, hk⟩) d := by
      rw [npIndex, List.getD_eq_getElem?_getD, List.getElem?_map,
        List.getElem?_eq_getElem hk]
      simp
    have h2 : p.getD k 0 = p.get ⟨k, hk⟩ := by
      rw [List.getD_eq_getElem?_getD, List.getElem?_eq_getElem hk]
      simp
    rw [h1, h2]
  have hj : p.getD k 0 ∈ p := by
    rw [List.getD_eq_getElem?_getD, List.getElem?_eq_getElem hk]
    exact List.getElem_mem _
  refine ⟨by rw [hmap, hmap, hmap], ?_⟩
  rw [hmap, hmap, hmap]
  exact getD_mem_zip3 da db dc xs ys zs (p.getD k 0) hxy hyz (hp _ hj)

/-- C7 evaluated concretely: permuting `[10,20]`, `[30,40]`, `[50,60]` by
`p = [1,0]` keeps the rows aligned; row 0 is the original tuple at index 1. -/
theorem c7_co_permutation_witness :
    ((npIndex 0 [10, 20] [1, 0]).getD 0 0, (npIndex 0 [30, 40] [1, 0]).getD 0 0,
        (npIndex 0 [50, 60] [1, 0]).getD 0 0)
      = (([10, 20] : List ℕ).getD (([1, 0] : List ℕ).getD 0 0) 0,
          ([30, 40] : List ℕ).getD (([1, 0] : List ℕ).getD 0 0) 0,
          ([50, 60] : List ℕ).getD (([1, 0] : List ℕ).getD 0 0) 0) ∧
    ((npIndex 0 [10, 20] [1, 0]).getD 0 0, (npIndex 0 [30, 40] [1, 0]).getD 0 0,
        (npIndex 0 [50, 60] [1, 0]).getD 0 0) ∈ zip3 [10, 20] [30, 40] [50, 60] :=
  c7_co_permutation 0 0 0 [10, 20] [30, 40] [50, 60] [1, 0] rfl rfl
    (by decide) 0 (by decide)

/-- Training phase, selected by `step_file` (lines 1146-1153). -/
inductive Phase : Type
  | TRAIN : Phase
  | VALIDATE : Phase
  | TEST : Phase
deriving DecidableEq

/-- `k_limit` (lines 1135-1138): 3 in the final epoch, 2 otherwise. -/
def kLimit (numEpochs e : ℕ) : ℕ := if e = numEpochs - 1 then 3 else 2

/-- Phase run at loop index `step_file`: 0 reads the train directory, 1 the
validation directory, anything else the test directory. -/
def phaseOfIndex : ℕ → Phase
  | 0 => Phase.TRAIN
  | 1 => Phase.VALIDATE
  | _ => Phase.TEST

/-- The phases epoch `e` runs: `for step_file in range(0, k_limit)` (line 1143). -/
def epochPhases (numEpochs e : ℕ) : List Phase :=
  (List.range (kLimit numEpochs e)).map phaseOfIndex

/-- The whole run's phase schedule: `for n_epochs in range(FLAGS.num_epochs)`
(line 1131). -/
def schedule (numEpochs : ℕ) : List (List Phase) :=
  (List.range numEpochs).map (epochPhases numEpochs)

/-- C8: every epoch runs TRAIN then VALIDATE, TEST is appended exactly in the
final epoch (index `numEpochs - 1`) after VALIDATE, and no other phase order is
reachable in the schedule. -/
theorem c8_phase_schedule (numEpochs : ℕ) :
    schedule numEpochs
      = (List.range numEpochs).map (fun e =>
          [Phase.TRAIN, Phase.VALIDATE]
            ++ (if e = numEpochs - 1 then [Phase.TEST] else [])) ∧
    (∀ e, Phase.TEST ∈ epochPhases numEpochs e ↔ e = numEpochs - 1) := by
  have hpt : ∀ e, epochPhases numEpochs e
      = [Phase.TRAIN, Phase.VALIDATE]
        ++ (if e = numEpochs - 1 then [Phase.TEST] else []) := by
    intro e
    by_cases h : e = numEpochs - 1
    · rw [epochPhases, kLimit, if_pos h, if_pos h]
      rfl
    · rw [epochPhases, kLimit, if_neg h, if_neg h]
      rfl
  constructor
  · rw [schedule, funext hpt]
  · intro e
    rw [hpt e]
    by_cases h : e = numEpochs - 1
    · simp [h]
    · simp [h]

/-- The graph nodes fetched by `sess.run`: evaluating the `loss`, `accuracy`
or `summary` tensors is a pure read, while the `optimizer` node applies the
gradient update to the weights and `extra_update_ops` refreshes the
batch-normalization running statistics. -/
inductive Op : Type
  | optimizer : Op
  | loss : Op
  | accuracy : Op
  | summary : Op
  | extraUpdateOps : Op

/-- Mutable session state: the model parameters and the normalization
running statistics. -/
structure SessState (W B : Type) where
  weights : W
  bnStats : B

/-- Effect of fetching one node, parametric in the gradient update and the
statistics refresh performed by the respective ops. -/
def applyOp {W B : Type} (gradStep : W → W) (bnUpdate : W → B → B) :
    Op → SessState W B → SessState W B
  | Op.optimizer, s => ⟨gradStep s.weights, s.bnStats⟩
  | Op.extraUpdateOps, s => ⟨s.weights, bnUpdate s.weights s.bnStats⟩
  | _, s => s

/-- `sess.run(fetches, ...)` evaluates every fetched node. -/
def runFetches {W B : Type} (gradStep : W → W) (bnUpdate : W → B → B)
    (ops : List Op) (s : SessState W B) : SessState W B :=
  ops.foldl (fun t op => applyOp gradStep bnUpdate op t) s

/-- TRAIN fetch list (line 1259):
`[optimizer, self.loss, self.accuracy, self.summary, extra_update_ops]`. -/
def trainFetches : List Op :=
  [Op.optimizer, Op.loss, Op.accuracy, Op.summary, Op.extraUpdateOps]

/-- VALIDATE fetch list (line 1281): `[self.loss, self.accuracy, self.summary]`. -/
def validFetches : List Op := [Op.loss, Op.accuracy, Op.summary]

/-- TEST fetch list (line 1301): `[self.loss, self.accuracy, self.summary]`. -/
def testFetches : List Op := [Op.loss, Op.accuracy, Op.summary]

/-- C9: a VALIDATE or TEST batch is a forward pass only — its fetch list
contains no mutating node, so every model parameter (and the normalization
statistics) is unchanged — while a TRAIN batch mutates the weights exactly
through the optimizer step. -/
theorem c9_eval_preserves_params {W B : Type} (gradStep : W → W)
    (bnUpdate : W → B → B) (s : SessState W B) :
    runFetches gradStep bnUpdate validFetches s = s ∧
    runFetches gradStep bnUpdate testFetches s = s ∧
    (runFetches gradStep bnUpdate trainFetches s).weights = gradStep s.weights :=
  ⟨rfl, rfl, rfl⟩

/-- `self.size_batch = float(FLAGS.batch_size)` (line 200), captured once at
model construction, independent of the rows actually fed. -/
def size_batch (batchSize : ℕ) : ℚ := batchSize

/-- `self.accuracy` (lines 1058-1059): the count of rows whose predicted
arg-max equals the true arg-max, as a float. -/
def accuracyCount (cmpLabels : List Bool) : ℚ :=
  (cmpLabels.map (fun b => if b then (1 : ℚ) else 0)).sum

/-- `self.acc_batch = (self.accuracy/self.size_batch)*100` (line 1060). -/
def acc_batch (accuracy sizeBatch : ℚ) : ℚ := accuracy / sizeBatch * 100

/-- The cumulative accuracy printed every 100 steps (line 1270):
`acc_train/(FLAGS.batch_size*step_train)`. -/
def cumulativeAcc (accTrain : ℚ) (batchSize step : ℕ) : ℚ :=
  accTrain / (batchSize * step)

/-- C10: the per-batch accuracy divides the correct count by the configured
batch size, not by the rows actually fed: an all-correct dispatched batch of
`batch_size + 1` rows reports strictly more than 100 percent, and the
cumulative accuracy divides by `batch_size * step`, likewise exceeding 1 after
`k` all-correct overshot batches. -/
theorem c10_accuracy_denominator (bs k : ℕ) (hbs : 1 ≤ bs) (hk : 1 ≤ k) :
    acc_batch (accuracyCount (List.replicate (bs + 1) true)) (size_batch bs) > 100 ∧
    cumulativeAcc ((k : ℚ) * ((bs : ℚ) + 1)) bs k > 1 := by
  have hb : (0 : ℚ) < (bs : ℚ) := by exact_mod_cast hbs
  have hkq : (0 : ℚ) < (k : ℚ) := by exact_mod_cast hk
  have hacc : accuracyCount (List.replicate (bs + 1) true) = (bs : ℚ) + 1 := by
    simp only [accuracyCount, List.map_replicate, if_pos, List.sum_replicate,
      nsmul_eq_mul, mul_one]
    push_cast
    ring
  constructor
  · rw [hacc, acc_batch, size_batch, gt_iff_lt, div_mul_eq_mul_div, lt_div_iff₀ hb]
    linarith
  · rw [cumulativeAcc, gt_iff_lt, lt_div_iff₀ (by positivity)]
    nlinarith

/-- C10 evaluated at `batch_size = 10`: an all-correct 11-row batch reports
110 percent, and one such step reports cumulative accuracy above 1. -/
theorem c10_accuracy_denominator_witness :
    acc_batch (accuracyCount (List.replicate (10 + 1) true)) (size_batch 10) > 100 ∧
    cumulativeAcc ((1 : ℚ) * ((10 : ℚ) + 1)) 10 1 > 1 :=
  c10_accuracy_denominator 10 1 (by norm_num) (by norm_num)

end Resnet50
